import Mathlib

/-!
Verification of the Tetris game engine that ships (twice) in this repository:
once under `my-work/tetris-game/script.js` and once under `examples/tetris/script.js`.
The two variants are embedded shallowly below (namespaces `MyWork` and `Examples`),
mutable JS objects becoming immutable records threaded through the operations,
JS number indices becoming `Int`/`Nat`, and JS arrays becoming lists.
-/

namespace MyWork

/-- The 7 standard tetromino types (keys of `TETROMINO_TYPES`). -/
inductive TType where
  | I | O | T | S | Z | J | L
deriving DecidableEq

/-- `TETROMINO_TYPES[type].shapes`: the four precomputed rotation states of each
tetromino, verbatim from the source tables. -/
def TETROMINO_TYPES_shapes : TType → List (List (List Nat))
  | .I => [[[1,1,1,1]],
           [[1],[1],[1],[1]],
           [[1,1,1,1]],
           [[1],[1],[1],[1]]]
  | .O => [[[1,1],[1,1]],
           [[1,1],[1,1]],
           [[1,1],[1,1]],
           [[1,1],[1,1]]]
  | .T => [[[0,1,0],[1,1,1]],
           [[1,0],[1,1],[1,0]],
           [[1,1,1],[0,1,0]],
           [[0,1],[1,1],[0,1]]]
  | .S => [[[0,1,1],[1,1,0]],
           [[1,0],[1,1],[0,1]],
           [[0,1,1],[1,1,0]],
           [[1,0],[1,1],[0,1]]]
  | .Z => [[[1,1,0],[0,1,1]],
           [[0,1],[1,1],[1,0]],
           [[1,1,0],[0,1,1]],
           [[0,1],[1,1],[1,0]]]
  | .J => [[[1,0,0],[1,1,1]],
           [[1,1],[1,0],[1,0]],
           [[1,1,1],[0,0,1]],
           [[0,1],[0,1],[1,1]]]
  | .L => [[[0,0,1],[1,1,1]],
           [[1,0],[1,0],[1,1]],
           [[1,1,1],[1,0,0]],
           [[1,1],[0,1],[0,1]]]

/-- `TETROMINO_TYPES[type].color`. -/
def TETROMINO_TYPES_color : TType → String
  | .I => "#00f0f0"
  | .O => "#f0f000"
  | .T => "#a000f0"
  | .S => "#00f000"
  | .Z => "#f00000"
  | .J => "#0000f0"
  | .L => "#f0a000"

/-- A `Tetromino` instance: its type tag and current rotation index.
The constructor sets `rotation = 0`; `rotate` keeps it in `0..3` via `% 4`. -/
structure Tetromino where
  type : TType
  rotation : Nat
deriving DecidableEq

/-- `Tetromino.getShape`: `this._tetrominoData.shapes[this.rotation]`. -/
def Tetromino.getShape (t : Tetromino) : List (List Nat) :=
  (TETROMINO_TYPES_shapes t.type).getD t.rotation []

/-- `Tetromino.getColor`. -/
def Tetromino.getColor (t : Tetromino) : String :=
  TETROMINO_TYPES_color t.type

/-- `Tetromino.validateCurrentShape`: the current shape is a non-empty rectangular
matrix of 0/1 entries containing at least one 1. -/
def Tetromino.validateCurrentShape (t : Tetromino) : Bool :=
  let shape := t.getShape
  if shape.length = 0 then false
  else
    let expectedWidth := (shape.getD 0 []).length
    if expectedWidth = 0 then false
    else if !(shape.all fun row => row.length = expectedWidth) then false
    else if !(shape.all fun row => row.all fun cell => cell = 0 || cell = 1) then false
    else shape.any fun row => row.any fun cell => cell = 1

/-- `Tetromino.rotate`: advance the rotation index by one (mod 4); the source
re-validates the new shape, reverts and throws on failure (`none` here). -/
def Tetromino.rotate (t : Tetromino) : Option Tetromino :=
  let t2 : Tetromino := { t with rotation := (t.rotation + 1) % 4 }
  if t2.validateCurrentShape then some t2 else none

/-- `CONFIG.BOARD_WIDTH`. -/
def CONFIG_BOARD_WIDTH : Nat := 10

/-- `CONFIG.BOARD_HEIGHT`. -/
def CONFIG_BOARD_HEIGHT : Nat := 20

/-- `CONFIG.INITIAL_DROP_SPEED` (ms). -/
def CONFIG_INITIAL_DROP_SPEED : ℚ := 1000

/-- `CONFIG.SPEED_INCREASE_RATE` (the literal `0.9`, modelled as the exact
rational `9/10`). -/
def CONFIG_SPEED_INCREASE_RATE : ℚ := 9/10

/-- The board grid: an array of rows, each an array of cells
(`0` = empty, `1..7` = color id). -/
abbrev Grid := List (List Nat)

/-- The `GameBoard` object: `width`, `height` and the `board` grid. -/
structure GameBoard where
  width : Nat
  height : Nat
  board : Grid
deriving DecidableEq

/-- `GameBoard.initializeBoard`:
`Array(this.height).fill().map(() => Array(this.width).fill(0))`. -/
def initializeBoard (width height : Nat) : Grid :=
  List.replicate height (List.replicate width 0)

/-- The `GameBoard` constructor (defaults `CONFIG.BOARD_WIDTH`/`HEIGHT`). -/
def GameBoard.mkBoard (width height : Nat) : GameBoard :=
  { width := width, height := height, board := initializeBoard width height }

/-- `GameBoard.getCellValue`: `null` (here `none`) when out of bounds,
otherwise `board[row][col]`. -/
def GameBoard.getCellValue (b : GameBoard) (row col : Int) : Option Nat :=
  if row < 0 || row ≥ (b.height : Int) || col < 0 || col ≥ (b.width : Int) then none
  else some ((b.board.getD row.toNat []).getD col.toNat 0)

/-- `GameBoard.setCellValue`: in-bounds single-cell update; out-of-bounds writes
are rejected (the source returns `false` and leaves the grid alone, and its
callers ignore the returned boolean, so the embedding returns the board). -/
def GameBoard.setCellValue (b : GameBoard) (row col : Int) (value : Nat) : GameBoard :=
  if row < 0 || row ≥ (b.height : Int) || col < 0 || col ≥ (b.width : Int) then b
  else { b with board := b.board.set row.toNat ((b.board.getD row.toNat []).set col.toNat value) }

/-- `GameBoard.isEmpty`: empty (`0`) or out of bounds. -/
def GameBoard.isEmptyCell (b : GameBoard) (row col : Int) : Bool :=
  match b.getCellValue row col with
  | none => true
  | some v => v = 0

/-- `GameBoard.isFilled`: in bounds and `> 0`. -/
def GameBoard.isFilled (b : GameBoard) (row col : Int) : Bool :=
  match b.getCellValue row col with
  | none => false
  | some v => 0 < v

/-- `GameBoard.clear` / `GameBoard.reset`: re-initialize the grid. -/
def GameBoard.clear (b : GameBoard) : GameBoard :=
  { b with board := initializeBoard b.width b.height }

/-- `GameBoard.isInBounds`. -/
def GameBoard.isInBounds (b : GameBoard) (row col : Int) : Bool :=
  0 ≤ row && row < (b.height : Int) && 0 ≤ col && col < (b.width : Int)

/-- `GameBoard.getFilledCellCount`: number of cells with value `> 0`, counted by
the double loop over `height × width`. -/
def GameBoard.getFilledCellCount (b : GameBoard) : Nat :=
  (List.range b.height).foldl
    (fun count row =>
      (List.range b.width).foldl
        (fun c col => if 0 < (b.board.getD row []).getD col 0 then c + 1 else c) count)
    0

/-- `GameBoard.isValidPosition`: every filled block of the piece's current shape
must land in bounds and on an unfilled cell; the guard clauses of the source
(`!piece`, non-number coordinates, empty shape) reduce here to the empty-shape
check, the rest being enforced by types. -/
def GameBoard.isValidPosition (b : GameBoard) (piece : Tetromino) (x y : Int) : Bool :=
  let shape := piece.getShape
  if shape.length = 0 then false
  else
    (List.range shape.length).all fun row =>
      (List.range (shape.getD row []).length).all fun col =>
        if (shape.getD row []).getD col 0 = 0 then true
        else
          b.isInBounds (y + row) (x + col) && !(b.isFilled (y + row) (x + col))

/-- `GameBoard.getColorId`: the hex-color → color-id map, defaulting to `1`. -/
def GameBoard.getColorId (color : String) : Nat :=
  if color = "#00f0f0" then 1
  else if color = "#f0f000" then 2
  else if color = "#a000f0" then 3
  else if color = "#00f000" then 4
  else if color = "#f00000" then 5
  else if color = "#0000f0" then 6
  else if color = "#f0a000" then 7
  else 1

/-- `GameBoard.placePiece`: `false` and no mutation if `isValidPosition` fails;
otherwise write `getColorId(piece.getColor())` into every cell of the shape
that equals `1` (the double loop becomes nested folds). -/
def GameBoard.placePiece (b : GameBoard) (piece : Tetromino) (x y : Int) : Bool × GameBoard :=
  if !(b.isValidPosition piece x y) then (false, b)
  else
    let shape := piece.getShape
    let colorId := GameBoard.getColorId piece.getColor
    (true,
      (List.range shape.length).foldl
        (fun g row =>
          (List.range (shape.getD row []).length).foldl
            (fun g2 col =>
              if (shape.getD row []).getD col 0 = 1 then
                g2.setCellValue (y + row) (x + col) colorId
              else g2)
            g)
        b)

/-- `GameBoard.isLineComplete`: row in range and all of its cells non-zero. -/
def GameBoard.isLineComplete (b : GameBoard) (row : Nat) : Bool :=
  if row ≥ b.height then false
  else (List.range b.width).all fun col => (b.board.getD row []).getD col 0 ≠ 0

/-- `GameBoard.findCompletedLines`: the source scans rows from `height-1` down
to `0`, pushing complete ones, then re-sorts descending (a no-op on the already
descending list); the result is the descending list of complete row indices. -/
def GameBoard.findCompletedLines (b : GameBoard) : List Nat :=
  (List.range b.height).reverse.filter fun row => b.isLineComplete row

/-- `GameBoard.removeLine`: shift every row above `lineIndex` down by one
(`board[row] = board[row-1]` for `row = lineIndex .. 1`) and zero the top row;
no-op when the index is out of range. -/
def GameBoard.removeLine (b : GameBoard) (lineIndex : Nat) : GameBoard :=
  if lineIndex ≥ b.height then b
  else
    { b with board :=
        List.replicate b.width 0 :: (b.board.take lineIndex ++ b.board.drop (lineIndex + 1)) }

/-- `GameBoard.removeCompletedLines`: call `removeLine` on each listed index, in
list order (the source iterates the descending-sorted `completedLines`). -/
def GameBoard.removeCompletedLines (b : GameBoard) (completedLines : List Nat) : GameBoard :=
  completedLines.foldl (fun g i => g.removeLine i) b

/-- `GameBoard.clearLines`: find the completed lines, remove them, and return
the board together with the number of lines cleared. -/
def GameBoard.clearLines (b : GameBoard) : GameBoard × Nat :=
  let completedLines := b.findCompletedLines
  if completedLines.length = 0 then (b, 0)
  else (b.removeCompletedLines completedLines, completedLines.length)

/-- The `GameState` object: score, level, lines and the three status booleans. -/
structure GameState where
  score : Nat
  level : Nat
  lines : Nat
  isPaused : Bool
  isGameOver : Bool
  isRunning : Bool
deriving DecidableEq

/-- `GameState.reset` (also the constructor): all counters to their initial
values and all status flags off. -/
def GameState.reset : GameState :=
  { score := 0, level := 1, lines := 0,
    isPaused := false, isGameOver := false, isRunning := false }

/-- `GameState.setPaused`: ignored while game over, otherwise set the flag. -/
def GameState.setPaused (s : GameState) (paused : Bool) : GameState :=
  if s.isGameOver then s else { s with isPaused := paused }

/-- `GameState.setGameOver`: set the flag; when turning it on, also clear
`isRunning` and `isPaused`. -/
def GameState.setGameOver (s : GameState) (gameOver : Bool) : GameState :=
  if gameOver then
    { s with isGameOver := true, isRunning := false, isPaused := false }
  else { s with isGameOver := false }

/-- `GameState.setRunning`: set the flag; when turning it on, also clear
`isGameOver`. -/
def GameState.setRunning (s : GameState) (running : Bool) : GameState :=
  if running then { s with isRunning := true, isGameOver := false }
  else { s with isRunning := false }

/-- `GameState.updateScore`: reject `linesCleared` outside `0..4` (return `0`
points), otherwise award `100 × multiplier × level` where the multiplier is
`{1:1, 2:3, 3:5, 4:8}` (the `|| 1` default is unreachable for `1..4`).
Returns the updated state and the points awarded. -/
def GameState.updateScore (s : GameState) (linesCleared : Nat) : GameState × Nat :=
  if linesCleared > 4 then (s, 0)
  else if linesCleared = 0 then (s, 0)
  else
    let baseScore := 100
    let multiplier :=
      match linesCleared with
      | 1 => 1
      | 2 => 3
      | 3 => 5
      | 4 => 8
      | _ => 1
    let basePoints := baseScore * multiplier
    let totalPoints := basePoints * s.level
    ({ s with score := s.score + totalPoints }, totalPoints)

/-- `GameState.addLines`: add to the line total, recompute
`newLevel = floor(lines / 10) + 1`, adopt it only when it exceeds the current
level, and return whether the level increased. -/
def GameState.addLines (s : GameState) (linesCleared : Nat) : GameState × Bool :=
  let lines2 := s.lines + linesCleared
  let newLevel := lines2 / 10 + 1
  let levelIncreased := decide (newLevel > s.level)
  ({ s with lines := lines2, level := if levelIncreased then newLevel else s.level },
   levelIncreased)

/-- `GameState.getDropSpeed`:
`max(50, INITIAL_DROP_SPEED * SPEED_INCREASE_RATE ^ (level - 1))`
(JS floating point modelled by exact rationals). -/
def GameState.getDropSpeed (s : GameState) : ℚ :=
  max 50 (CONFIG_INITIAL_DROP_SPEED * CONFIG_SPEED_INCREASE_RATE ^ (s.level - 1))

end MyWork

namespace Examples

/-- A JavaScript board-cell value in `examples/tetris/script.js`: the board is
initialized with the number `0` and `placePiece` writes the piece's color
*string* into it, so a cell is dynamically either a number or a string. -/
inductive JsVal where
  | num (n : Int)
  | str (s : String)
deriving DecidableEq

/-- JS truthiness for the values that can appear in a board cell
(`0` and `""` are falsy). -/
def JsVal.truthy : JsVal → Bool
  | .num n => n ≠ 0
  | .str s => s ≠ ""

/-- `BOARD_WIDTH`. -/
def BOARD_WIDTH : Nat := 10

/-- `BOARD_HEIGHT`. -/
def BOARD_HEIGHT : Nat := 20

/-- The board: `BOARD_HEIGHT` rows of `BOARD_WIDTH` cells. -/
abbrev Board := List (List JsVal)

/-- `TetrisGame.createEmptyBoard`. -/
def createEmptyBoard : Board :=
  List.replicate BOARD_HEIGHT (List.replicate BOARD_WIDTH (JsVal.num 0))

/-- `TETROMINOS[type].shape`: the single 4×4 base matrix of each type. -/
def TETROMINOS_shape : MyWork.TType → List (List Nat)
  | .I => [[0,0,0,0],
           [1,1,1,1],
           [0,0,0,0],
           [0,0,0,0]]
  | .O => [[0,0,0,0],
           [0,1,1,0],
           [0,1,1,0],
           [0,0,0,0]]
  | .T => [[0,0,0,0],
           [0,1,0,0],
           [1,1,1,0],
           [0,0,0,0]]
  | .S => [[0,0,0,0],
           [0,1,1,0],
           [1,1,0,0],
           [0,0,0,0]]
  | .Z => [[0,0,0,0],
           [1,1,0,0],
           [0,1,1,0],
           [0,0,0,0]]
  | .J => [[0,0,0,0],
           [1,0,0,0],
           [1,1,1,0],
           [0,0,0,0]]
  | .L => [[0,0,0,0],
           [0,0,1,0],
           [1,1,1,0],
           [0,0,0,0]]

/-- `TETROMINOS[type].color`. -/
def TETROMINOS_color : MyWork.TType → String
  | .I => "#00f5ff"
  | .O => "#ffff00"
  | .T => "#800080"
  | .S => "#00ff00"
  | .Z => "#ff0000"
  | .J => "#0000ff"
  | .L => "#ffa500"

/-- A piece object as built by `createRandomPiece`: a (copied) shape matrix,
a color and a board-relative position. -/
structure Piece where
  shape : List (List Nat)
  color : String
  x : Int
  y : Int
deriving DecidableEq

/-- `createRandomPiece` for a given draw: shape and color from `TETROMINOS`,
spawn position `x = floor(BOARD_WIDTH/2) - 2`, `y = 0`. -/
def createPiece (t : MyWork.TType) : Piece :=
  { shape := TETROMINOS_shape t,
    color := TETROMINOS_color t,
    x := (BOARD_WIDTH : Int) / 2 - 2,
    y := 0 }

/-- `TetrisGame.rotateMatrix`: `rotated[j][3-i] = matrix[i][j]` for a 4×4
matrix, i.e. entry `(i, j)` of the result is `matrix[3-j][i]`. -/
def rotateMatrix (matrix : List (List Nat)) : List (List Nat) :=
  (List.range 4).map fun i =>
    (List.range 4).map fun j => (matrix.getD (3 - j) []).getD i 0

/-- `TetrisGame.checkCollision`: some filled shape cell, displaced by
`(dx, dy)`, either leaves the board to the left, right or bottom, or lands
(at non-negative row) on a truthy board cell. The top edge is not checked. -/
def checkCollision (board : Board) (piece : Piece) (dx dy : Int) : Bool :=
  let newX := piece.x + dx
  let newY := piece.y + dy
  (List.range 4).any fun y =>
    (List.range 4).any fun x =>
      ((piece.shape.getD y []).getD x 0 ≠ 0) &&
        (let boardX := newX + x
         let boardY := newY + y
         (boardX < 0 || boardX ≥ (BOARD_WIDTH : Int) || boardY ≥ (BOARD_HEIGHT : Int)) ||
           (boardY ≥ 0 &&
             ((board.getD boardY.toNat []).getD boardX.toNat (JsVal.num 0)).truthy))

/-- The grid-writing loop of `TetrisGame.placePiece`: every truthy shape cell
whose board row is non-negative receives the piece's color string; rows above
the top (`boardY < 0`) are skipped. (The subsequent `clearLines` /
`spawnNewPiece` calls of the source function are modelled separately.) -/
def placePieceWrites (board : Board) (piece : Piece) : Board :=
  (List.range 4).foldl
    (fun b y =>
      (List.range 4).foldl
        (fun b2 x =>
          if (piece.shape.getD y []).getD x 0 ≠ 0 then
            let boardX := piece.x + x
            let boardY := piece.y + y
            if boardY ≥ 0 then
              b2.set boardY.toNat ((b2.getD boardY.toNat []).set boardX.toNat (JsVal.str piece.color))
            else b2
          else b2)
        b)
    board

/-- One complete-row test of `clearLines`:
`this.board[y].every(cell => cell !== 0)`. -/
def rowComplete (row : List JsVal) : Bool :=
  row.all fun cell => cell ≠ JsVal.num 0

/-- The body of the `clearLines` scan, one loop iteration per fuel unit: at
row `y`, either splice the complete row out and unshift an empty row on top
(staying at the same index — the source does `y++` before the loop's `y--`),
or move up one row. The fuel only bounds the iteration count; the source loop
terminates because each splice removes a complete row. -/
def clearLinesLoop : Nat → Board → Int → Nat → Board × Nat
  | 0, board, _, linesCleared => (board, linesCleared)
  | fuel + 1, board, y, linesCleared =>
    if y < 0 then (board, linesCleared)
    else if rowComplete (board.getD y.toNat []) then
      clearLinesLoop fuel
        (List.replicate BOARD_WIDTH (JsVal.num 0) :: board.eraseIdx y.toNat)
        y (linesCleared + 1)
    else clearLinesLoop fuel board (y - 1) linesCleared

/-- The board transformation and line count of `TetrisGame.clearLines`
(the score update it triggers is `updateScore` below). -/
def clearLinesBoard (board : Board) : Board × Nat :=
  clearLinesLoop 64 board ((BOARD_HEIGHT : Int) - 1) 0

/-- The score/level/line state manipulated by `TetrisGame.updateScore`,
with the derived `dropInterval`. -/
structure GState where
  score : Nat
  level : Nat
  lines : Nat
  dropInterval : ℚ
deriving DecidableEq

/-- The state set up by `startNewGame`:
score 0, level 1, lines 0, `dropInterval = 1000`. -/
def initialGState : GState :=
  { score := 0, level := 1, lines := 0, dropInterval := 1000 }

/-- `TetrisGame.updateScore`: for a positive clear, award
`[0,100,300,500,800][linesCleared] × level` (at the pre-clear level), add the
lines, and on reaching a higher `floor(lines/10) + 1` adopt it and reset
`dropInterval = max(100, 1000 - (level-1) * 100)`. For `linesCleared > 4` the
source indexes past the table (NaN score); the embedding is only used for
`linesCleared ≤ 4`. -/
def updateScore (g : GState) (linesCleared : Nat) : GState :=
  if linesCleared > 0 then
    let points := ([0, 100, 300, 500, 800].getD linesCleared 0) * g.level
    let score2 := g.score + points
    let lines2 := g.lines + linesCleared
    let newLevel := lines2 / 10 + 1
    if newLevel > g.level then
      { score := score2, level := newLevel, lines := lines2,
        dropInterval := max 100 (1000 - ((newLevel : ℚ) - 1) * 100) }
    else { g with score := score2, lines := lines2 }
  else g

end Examples

/-- Modelled from the spec: the drop-timer law of §3/§4.3,
`interval = max(minInterval, baseInterval × rate^(level-1))`, stated as its own
definition so the implementations can be compared against it. -/
def dropIntervalSpec (minInterval baseInterval rate : ℚ) (level : Nat) : ℚ :=
  max minInterval (baseInterval * rate ^ (level - 1))

namespace MyWork

/-- Well-formed grid dimensions: `height` rows of `width` cells each. -/
def GoodDims (b : GameBoard) : Prop :=
  b.board.length = b.height ∧ ∀ row ∈ b.board, row.length = b.width

/-- The board invariant of the spec's data model: correct dimensions and every
cell in `[0, 7]`. -/
def GoodBoard (b : GameBoard) : Prop :=
  GoodDims b ∧ ∀ row ∈ b.board, ∀ v ∈ row, v ≤ 7

/-- The states of the `GameState` object reachable from the initial state by
the mutating operations, in any order. -/
inductive Reachable : GameState → Prop where
  | init : Reachable GameState.reset
  | pause {s} (p : Bool) : Reachable s → Reachable (s.setPaused p)
  | gameOver {s} (g : Bool) : Reachable s → Reachable (s.setGameOver g)
  | running {s} (r : Bool) : Reachable s → Reachable (s.setRunning r)
  | score {s} (n : Nat) : Reachable s → Reachable (s.updateScore n).1
  | addLn {s} (n : Nat) : Reachable s → Reachable (s.addLines n).1

/-- A completely filled 10-cell row. -/
def fullRow : List Nat := List.replicate 10 1

/-- A 10-cell row with a single filled cell (column 0). -/
def oneCellRow : List Nat := 1 :: List.replicate 9 0

/-- Failing input for multi-line clearing: rows 18 and 19 complete, row 17
holding a single filled cell, everything above empty. -/
def bugBoard : GameBoard :=
  { width := 10, height := 20,
    board := List.replicate 17 (List.replicate 10 0) ++ [oneCellRow, fullRow, fullRow] }

/-- The flattened traversal order of the double loop in `placePiece`:
row-major coordinates of the shape matrix. -/
def cellPairs (shape : List (List Nat)) : List (Nat × Nat) :=
  (List.range shape.length).flatMap fun i =>
    (List.range (shape.getD i []).length).map fun j => (i, j)

/-- The writing loop of `placePiece` over an explicit list of shape
coordinates (proof form of the nested loops). -/
def writeFold (shape : List (List Nat)) (x y : Int) (colorId : Nat)
    (L : List (Nat × Nat)) (b : GameBoard) : GameBoard :=
  L.foldl
    (fun g q =>
      if (shape.getD q.1 []).getD q.2 0 = 1 then
        g.setCellValue (y + q.1) (x + q.2) colorId
      else g)
    b

end MyWork

namespace Examples

/-- Discriminator for the dynamic board-cell values: is this cell a number? -/
def JsVal.isNum : JsVal → Bool
  | .num _ => true
  | .str _ => false

/-- Cell lookup in an examples board (`board[r][c]`, defaulting like an empty
cell when out of range). -/
def cellAt (board : Board) (r c : Nat) : JsVal :=
  (board.getD r []).getD c (JsVal.num 0)

/-- Filled-cell count of an examples board: cells that are truthy. -/
def countFilled (board : Board) : Nat :=
  (board.map fun row => (row.filter fun cell => cell.truthy).length).sum

/-- A completely filled 10-cell examples row. -/
def exFullRow : List JsVal := List.replicate 10 (JsVal.str "#ff0000")

/-- A 10-cell examples row with one filled cell (column 0). -/
def exOneCellRow : List JsVal := JsVal.str "#ff0000" :: List.replicate 9 (JsVal.num 0)

/-- The examples-variant counterpart of the multi-line clearing input: rows 18
and 19 complete, row 17 holding a single filled cell. -/
def exBugBoard : Board :=
  List.replicate 17 (List.replicate 10 (JsVal.num 0)) ++ [exOneCellRow, exFullRow, exFullRow]

/-- An O piece positioned two rows above the top of the board (its filled cells
land on board rows -1 and 0). -/
def oPieceAboveTop : Piece :=
  { shape := TETROMINOS_shape .O, color := TETROMINOS_color .O, x := 3, y := -2 }

/-- An I piece positioned so that all of its filled cells have board row -1. -/
def iPieceAboveTop : Piece :=
  { shape := TETROMINOS_shape .I, color := TETROMINOS_color .I, x := 3, y := -2 }

/-- An O piece at a legal in-bounds position (filled cells on rows 18-19,
columns 4-5). -/
def oPieceBottom : Piece :=
  { shape := TETROMINOS_shape .O, color := TETROMINOS_color .O, x := 3, y := 17 }

/-- The state produced by eight successive `updateScore` calls carrying the
game from level 1 to level 3 (9 lines at level 1, 11 more through level 2). -/
def level3State : GState :=
  updateScore (updateScore (updateScore (updateScore
    (updateScore (updateScore (updateScore (updateScore initialGState 4) 4) 1)
      1) 4) 4) 1) 1

/-- The examples board invariant actually maintained by the code: correct
dimensions, each cell the number `0` or the color string of one of the 7
piece types. -/
def ExGood (board : Board) : Prop :=
  board.length = 20 ∧ (∀ row ∈ board, row.length = 10) ∧
    ∀ row ∈ board, ∀ v ∈ row,
      v = JsVal.num 0 ∨ ∃ t : MyWork.TType, v = JsVal.str (TETROMINOS_color t)

/-- Well-formed dimensions of an examples board: 20 rows of 10 cells. -/
def ExDims (board : Board) : Prop :=
  board.length = 20 ∧ ∀ row ∈ board, row.length = 10

/-- Row-major coordinates of the 4×4 loops in `checkCollision`/`placePiece`. -/
def pairs44 : List (Nat × Nat) :=
  (List.range 4).flatMap fun i => (List.range 4).map fun j => (i, j)

/-- The writing loop of `placePieceWrites` over an explicit coordinate list
(proof form of the nested loops). -/
def exWriteFold (p : Piece) (L : List (Nat × Nat)) (board : Board) : Board :=
  L.foldl
    (fun b2 q =>
      if (p.shape.getD q.1 []).getD q.2 0 ≠ 0 then
        if p.y + q.1 ≥ 0 then
          b2.set (p.y + q.1).toNat
            ((b2.getD (p.y + q.1).toNat []).set (p.x + q.2).toNat (JsVal.str p.color))
        else b2
      else b2)
    board

end Examples

/-! ## Theorems -/

set_option maxRecDepth 40000

/-- C1: refuted on the my-work variant (code bug). On a board whose rows 18
and 19 are complete and whose row 17 holds one filled cell,
`GameBoard.clearLines` reports 2 cleared lines but removes row 19 and the
*incomplete* row 17: the filled-cell count drops by 11 instead of k×W = 20,
and a complete row is still on the board afterwards (`isLineComplete 19`).
The cause: `removeCompletedLines` iterates the descending-sorted index list,
but `removeLine` shifts the rows *above* the removed index down, so after
removing row 19 the remaining completed row has moved from 18 to 19 and
`removeLine 18` deletes the wrong row. The examples variant
(`TetrisGame.clearLines`, embedded as `clearLinesBoard`) handles the same
configuration correctly: 2 lines cleared, 21 − 1 = 20 cells removed. -/
theorem clearLines_multiRow_bug :
    MyWork.bugBoard.findCompletedLines = [19, 18] ∧
    (MyWork.bugBoard.clearLines).2 = 2 ∧
    MyWork.bugBoard.getFilledCellCount = 21 ∧
    (MyWork.bugBoard.clearLines).1.getFilledCellCount = 10 ∧
    (MyWork.bugBoard.clearLines).1.isLineComplete 19 = true ∧
    (Examples.clearLinesBoard Examples.exBugBoard).2 = 2 ∧
    Examples.countFilled Examples.exBugBoard = 21 ∧
    Examples.countFilled (Examples.clearLinesBoard Examples.exBugBoard).1 = 1 := by
  decide

/-- C3: confirmed. In both variants, clearing n ∈ {1,2,3,4} lines at level L
awards exactly {100, 300, 500, 800}[n−1] × L points and adds exactly that
amount to the stored score (proved for every level, in particular L ≥ 1). -/
theorem scoreForClear_table (s : MyWork.GameState) (g : Examples.GState) (n : Nat)
    (h1 : 1 ≤ n) (h4 : n ≤ 4) :
    (s.updateScore n).2 = ([100, 300, 500, 800].getD (n - 1) 0) * s.level ∧
    (s.updateScore n).1.score = s.score + ([100, 300, 500, 800].getD (n - 1) 0) * s.level ∧
    (Examples.updateScore g n).score
      = g.score + ([100, 300, 500, 800].getD (n - 1) 0) * g.level := by
  interval_cases n <;>
    refine ⟨by simp [MyWork.GameState.updateScore], by simp [MyWork.GameState.updateScore], ?_⟩ <;>
    · simp only [Examples.updateScore]
      split
      · split <;> simp
      · omega

/-- Witness for `scoreForClear_table` at level 5, a double line clear. -/
theorem scoreForClear_table_witness :
    (({ MyWork.GameState.reset with level := 5 } : MyWork.GameState).updateScore 2).2
        = ([100, 300, 500, 800].getD (2 - 1) 0) * 5 ∧
      (({ MyWork.GameState.reset with level := 5 } : MyWork.GameState).updateScore 2).1.score
        = 0 + ([100, 300, 500, 800].getD (2 - 1) 0) * 5 ∧
      (Examples.updateScore { score := 0, level := 5, lines := 0, dropInterval := 1000 } 2).score
        = 0 + ([100, 300, 500, 800].getD (2 - 1) 0) * 5 :=
  scoreForClear_table { MyWork.GameState.reset with level := 5 }
    { score := 0, level := 5, lines := 0, dropInterval := 1000 } 2 (by decide) (by decide)

/-- C4: confirmed. Starting from any state satisfying the level law
`level = floor(lines/10) + 1`, the my-work `addLines` adds n to the line
total, re-establishes the law for the new total (so the level rises exactly
once per 10 cumulative lines), and reports whether the level rose; the
examples `updateScore` maintains the same law for n ∈ {1..4}. In particular
clearing 4 lines with 8 on the books gives 12 lines and exactly one level
increase (level 1 → 2). -/
theorem line_accounting_level (s : MyWork.GameState) (g : Examples.GState) (n m : Nat)
    (hs : s.level = s.lines / 10 + 1)
    (hm1 : 1 ≤ m) (hm4 : m ≤ 4) (hg : g.level = g.lines / 10 + 1) :
    (s.addLines n).1.lines = s.lines + n ∧
    (s.addLines n).1.level = (s.lines + n) / 10 + 1 ∧
    (s.addLines n).2 = decide ((s.lines + n) / 10 + 1 > s.level) ∧
    (Examples.updateScore g m).lines = g.lines + m ∧
    (Examples.updateScore g m).level = (g.lines + m) / 10 + 1 ∧
    ((({ MyWork.GameState.reset with lines := 8 } : MyWork.GameState).addLines 4).1.level = 2 ∧
      (({ MyWork.GameState.reset with lines := 8 } : MyWork.GameState).addLines 4).1.lines = 12 ∧
      (({ MyWork.GameState.reset with lines := 8 } : MyWork.GameState).addLines 4).2 = true) := by
  have h1 : (s.addLines n).1.lines = s.lines + n := by
    simp [MyWork.GameState.addLines]
  have h2 : (s.addLines n).1.level = (s.lines + n) / 10 + 1 := by
    simp only [MyWork.GameState.addLines]
    split
    · rfl
    · next h => simp only [decide_eq_true_eq, not_lt] at h; omega
  have h3 : (s.addLines n).2 = decide ((s.lines + n) / 10 + 1 > s.level) := by
    simp only [MyWork.GameState.addLines]
  have h4 : (Examples.updateScore g m).lines = g.lines + m := by
    simp only [Examples.updateScore]
    rw [if_pos (by omega : m > 0)]
    split <;> rfl
  have h5 : (Examples.updateScore g m).level = (g.lines + m) / 10 + 1 := by
    simp only [Examples.updateScore]
    rw [if_pos (by omega : m > 0)]
    split
    · rfl
    · next h => show g.level = (g.lines + m) / 10 + 1; omega
  exact ⟨h1, h2, h3, h4, h5, by decide, by decide, by decide⟩

/-- Witness for `line_accounting_level`: the 8 + 4 → 12 lines scenario. -/
theorem line_accounting_level_witness :
    ((({ MyWork.GameState.reset with lines := 8 } : MyWork.GameState).addLines 4).1.lines
        = 8 + 4) ∧
      ((Examples.updateScore { score := 0, level := 1, lines := 8, dropInterval := 1000 } 4).level
        = (8 + 4) / 10 + 1) :=
  ⟨(line_accounting_level { MyWork.GameState.reset with lines := 8 }
      { score := 0, level := 1, lines := 8, dropInterval := 1000 } 4 4
      (by decide) (by decide) (by decide) (by decide)).1,
   (line_accounting_level { MyWork.GameState.reset with lines := 8 }
      { score := 0, level := 1, lines := 8, dropInterval := 1000 } 4 4
      (by decide) (by decide) (by decide) (by decide)).2.2.2.2.1⟩

/-- C5 counterexample: driving the examples variant to level 3 (via successive
`updateScore` calls) leaves `dropInterval = 800`, while the geometric law
`max(min, base × rate^(L-1))` — with the base interval 1000 observable in the
code, the rate 9/10 forced by the level-2 value 900, and either candidate
minimum (the code's own 100 or the my-work 50) — demands 810. -/
theorem dropInterval_not_geometric_cexample :
    Examples.level3State.level = 3 ∧
    Examples.level3State.dropInterval = 800 ∧
    dropIntervalSpec 100 1000 (9/10) 3 = 810 ∧
    dropIntervalSpec 50 1000 (9/10) 3 = 810 ∧
    Examples.level3State.dropInterval ≠ dropIntervalSpec 100 1000 (9/10) 3 := by
  refine ⟨by decide, ?_, by norm_num [dropIntervalSpec], by norm_num [dropIntervalSpec], ?_⟩ <;>
    norm_num [Examples.level3State, Examples.initialGState, Examples.updateScore, dropIntervalSpec]

/-- C5 as amended: the geometric drop-interval law holds for the my-work
variant — `getDropSpeed = max(50, 1000 × (9/10)^(level-1))`, definitionally
the spec formula `dropIntervalSpec 50 1000 (9/10)` — while the examples
variant follows the linear schedule `max(100, 1000 − 100 × (L−1))` whenever a
clear raises the level to L. -/
theorem dropInterval_formulas (s : MyWork.GameState) (g : Examples.GState) (n : Nat)
    (hn : 0 < n) (hup : (Examples.updateScore g n).level > g.level) :
    s.getDropSpeed = dropIntervalSpec 50 1000 (9/10) s.level ∧
    (Examples.updateScore g n).dropInterval
      = max 100 (1000 - (((Examples.updateScore g n).level : ℚ) - 1) * 100) := by
  refine ⟨rfl, ?_⟩
  simp only [Examples.updateScore, if_pos hn] at hup ⊢
  split
  · rfl
  · next h =>
    exfalso
    revert hup
    split
    · exact fun _ => h (by assumption)
    · exact fun hc => lt_irrefl _ hc

/-- Witness for `dropInterval_formulas`: a single-line clear carrying the
examples variant from 9 to 10 lines (level 1 → 2). -/
theorem dropInterval_formulas_witness :
    MyWork.GameState.reset.getDropSpeed
        = dropIntervalSpec 50 1000 (9/10) MyWork.GameState.reset.level ∧
      (Examples.updateScore { score := 0, level := 1, lines := 9, dropInterval := 1000 } 1).dropInterval
        = max 100
            (1000 -
              (((Examples.updateScore { score := 0, level := 1, lines := 9, dropInterval := 1000 } 1).level : ℚ)
                - 1) * 100) :=
  dropInterval_formulas MyWork.GameState.reset
    { score := 0, level := 1, lines := 9, dropInterval := 1000 } 1 (by decide) (by decide)

/-- C6: confirmed. Rotating four times clockwise is the identity in both
variants: the my-work `Tetromino.rotate` (with its shape re-validation, which
always succeeds on the built-in tables) returns the piece with its original
rotation index — hence bit-for-bit the original shape — from any rotation
state 0..3 of any of the 7 types, and the examples `rotateMatrix` applied four
times to any rotation state of any of the 7 base matrices returns that matrix
unchanged. -/
theorem rotate_four_identity (ty : MyWork.TType) (r k : Nat) (hr : r < 4) (hk : k < 4) :
    ((((MyWork.Tetromino.rotate ⟨ty, r⟩).bind MyWork.Tetromino.rotate).bind
        MyWork.Tetromino.rotate).bind MyWork.Tetromino.rotate) = some ⟨ty, r⟩ ∧
    Examples.rotateMatrix (Examples.rotateMatrix (Examples.rotateMatrix (Examples.rotateMatrix
        (Examples.rotateMatrix^[k] (Examples.TETROMINOS_shape ty)))))
      = Examples.rotateMatrix^[k] (Examples.TETROMINOS_shape ty) := by
  constructor
  · interval_cases r <;> cases ty <;> decide
  · interval_cases k <;> cases ty <;> decide

/-- Witness for `rotate_four_identity`: the T piece in rotation state 2 and
its examples matrix rotated once. -/
theorem rotate_four_identity_witness :
    ((((MyWork.Tetromino.rotate ⟨.T, 2⟩).bind MyWork.Tetromino.rotate).bind
        MyWork.Tetromino.rotate).bind MyWork.Tetromino.rotate) = some ⟨.T, 2⟩ ∧
      Examples.rotateMatrix (Examples.rotateMatrix (Examples.rotateMatrix (Examples.rotateMatrix
          (Examples.rotateMatrix^[1] (Examples.TETROMINOS_shape .T)))))
        = Examples.rotateMatrix^[1] (Examples.TETROMINOS_shape .T) :=
  rotate_four_identity .T 2 1 (by decide) (by decide)

/-- C8 counterexample: `paused implies running` is not an invariant of the
code. From the freshly reset state (which is reachable and not running),
`setPaused(true)` yields a state that is paused yet not running. -/
theorem paused_without_running_cexample :
    MyWork.Reachable (MyWork.GameState.reset.setPaused true) ∧
    (MyWork.GameState.reset.setPaused true).isPaused = true ∧
    (MyWork.GameState.reset.setPaused true).isRunning = false :=
  ⟨MyWork.Reachable.pause true MyWork.Reachable.init, by decide, by decide⟩

/-- C8 as amended: of the two spec invariants only the first survives — in
every state reachable from the initial state by any sequence of `GameState`
operations, game-over implies neither running nor paused. (The second,
`paused implies running`, fails: see the counterexample.) -/
theorem statusFlags_invariant (s : MyWork.GameState) (h : MyWork.Reachable s)
    (hg : s.isGameOver = true) : s.isRunning = false ∧ s.isPaused = false := by
  induction h with
  | init => simp [MyWork.GameState.reset] at hg
  | pause p hr ih =>
    rename_i s0
    by_cases h0 : s0.isGameOver
    · have he : s0.setPaused p = s0 := by simp [MyWork.GameState.setPaused, h0]
      rw [he] at hg ⊢
      exact ih hg
    · have he : (s0.setPaused p).isGameOver = s0.isGameOver := by
        simp [MyWork.GameState.setPaused, h0]
      rw [he] at hg
      exact absurd hg h0
  | gameOver g hr ih =>
    rename_i s0
    by_cases h0 : g
    · subst h0; simp [MyWork.GameState.setGameOver]
    · simp at h0; subst h0; simp [MyWork.GameState.setGameOver] at hg
  | running r hr ih =>
    rename_i s0
    by_cases h0 : r
    · subst h0; simp [MyWork.GameState.setRunning] at hg
    · simp at h0; subst h0
      simp only [MyWork.GameState.setRunning, if_neg Bool.false_ne_true] at hg ⊢
      exact ⟨by simp, (ih hg).2⟩
  | score n hr ih =>
    rename_i s0
    have hflags : (s0.updateScore n).1.isGameOver = s0.isGameOver ∧
        (s0.updateScore n).1.isRunning = s0.isRunning ∧
        (s0.updateScore n).1.isPaused = s0.isPaused := by
      simp only [MyWork.GameState.updateScore]
      split
      · simp
      · split <;> simp
    rw [hflags.1] at hg
    rw [hflags.2.1, hflags.2.2]
    exact ih hg
  | addLn n hr ih =>
    rename_i s0
    have hflags : (s0.addLines n).1.isGameOver = s0.isGameOver ∧
        (s0.addLines n).1.isRunning = s0.isRunning ∧
        (s0.addLines n).1.isPaused = s0.isPaused := by
      simp [MyWork.GameState.addLines]
    rw [hflags.1] at hg
    rw [hflags.2.1, hflags.2.2]
    exact ih hg

/-- Witness for `statusFlags_invariant`: the state right after `setGameOver(true)`. -/
theorem statusFlags_invariant_witness :
    (MyWork.GameState.reset.setGameOver true).isRunning = false ∧
      (MyWork.GameState.reset.setGameOver true).isPaused = false :=
  statusFlags_invariant (MyWork.GameState.reset.setGameOver true)
    (MyWork.Reachable.gameOver true MyWork.Reachable.init) (by decide)

/-! Generic list-update facts used by the grid proofs. -/

theorem getD_set_eq_ite {α : Type} (l : List α) (i j : Nat) (v d : α) :
    (l.set i v).getD j d = if i = j ∧ j < l.length then v else l.getD j d := by
  by_cases hij : i = j
  · subst hij
    by_cases hlen : i < l.length
    · simp [List.getD, List.getElem?_set_self, hlen]
    · rw [List.set_eq_of_length_le (Nat.le_of_not_lt hlen)]
      simp [hlen]
  · simp [List.getD, List.getElem?_set_ne hij, hij]

theorem getD_mem_of_lt {α : Type} (l : List α) (i : Nat) (d : α) (h : i < l.length) :
    l.getD i d ∈ l := by
  rw [List.getD_eq_getElem l d h]
  exact List.getElem_mem h

theorem cellSet_getD {α : Type} (g : List (List α)) (R C r c : Nat) (v d : α) :
    ((g.set R ((g.getD R []).set C v)).getD r []).getD c d
      = if R = r ∧ r < g.length ∧ C = c ∧ c < (g.getD R []).length then v
        else (g.getD r []).getD c d := by
  by_cases hRr : R = r
  · subst hRr
    rw [getD_set_eq_ite]
    by_cases hr : R < g.length
    · rw [if_pos ⟨rfl, hr⟩, getD_set_eq_ite]
      by_cases hC : C = c ∧ c < (g.getD R []).length
      · rw [if_pos hC, if_pos ⟨rfl, hr, hC.1, hC.2⟩]
      · rw [if_neg hC, if_neg (by tauto)]
    · rw [if_neg (by tauto), if_neg (by tauto)]
  · rw [getD_set_eq_ite, if_neg (by tauto), if_neg (by tauto)]

theorem foldl_flatMap {α β γ : Type} (l : List α) (f : α → List γ) (g : β → γ → β) (b : β) :
    (l.flatMap f).foldl g b = l.foldl (fun acc a => (f a).foldl g acc) b := by
  induction l generalizing b with
  | nil => rfl
  | cons a l ih => simp [List.flatMap_cons, List.foldl_append, ih]

theorem foldl_preserves {β γ : Type} {P : β → Prop} {f : β → γ → β} (l : List γ) {b : β}
    (hstep : ∀ b2 a, a ∈ l → P b2 → P (f b2 a)) (hb : P b) : P (l.foldl f b) := by
  induction l generalizing b with
  | nil => exact hb
  | cons a l ih =>
    exact ih (fun b2 q hq => hstep b2 q (List.mem_cons_of_mem a hq))
      (hstep b a (List.mem_cons_self a l) hb)

namespace MyWork

theorem setCellValue_width (b : GameBoard) (r c : Int) (v : Nat) :
    (b.setCellValue r c v).width = b.width := by
  unfold GameBoard.setCellValue
  split <;> rfl

theorem setCellValue_height (b : GameBoard) (r c : Int) (v : Nat) :
    (b.setCellValue r c v).height = b.height := by
  unfold GameBoard.setCellValue
  split <;> rfl

theorem GoodDims_setCellValue {b : GameBoard} (h : GoodDims b) (r c : Int) (v : Nat) :
    GoodDims (b.setCellValue r c v) := by
  obtain ⟨hlen, hrows⟩ := h
  unfold GameBoard.setCellValue
  split
  · exact ⟨hlen, hrows⟩
  · refine ⟨by simpa using hlen, ?_⟩
    intro row hrow
    rcases List.mem_or_eq_of_mem_set hrow with h2 | h2
    · exact hrows row h2
    · subst h2
      rw [List.length_set]
      by_cases hidx : r.toNat < b.board.length
      · exact hrows _ (getD_mem_of_lt _ _ _ hidx)
      · rw [List.getD_eq_default _ _ (Nat.le_of_not_lt hidx)]
        next hguard =>
        simp only [Bool.or_eq_true, decide_eq_true_eq, not_or] at hguard
        omega

theorem GoodBoard_setCellValue {b : GameBoard} (h : GoodBoard b) (r c : Int) {v : Nat}
    (hv : v ≤ 7) : GoodBoard (b.setCellValue r c v) := by
  obtain ⟨hd, hvals⟩ := h
  refine ⟨GoodDims_setCellValue hd r c v, ?_⟩
  unfold GameBoard.setCellValue
  split
  · exact hvals
  · intro row hrow
    rcases List.mem_or_eq_of_mem_set hrow with h2 | h2
    · exact hvals row h2
    · subst h2
      intro w hw
      rcases List.mem_or_eq_of_mem_set hw with h3 | h3
      · by_cases hidx : r.toNat < b.board.length
        · exact hvals _ (getD_mem_of_lt _ _ _ hidx) w h3
        · rw [List.getD_eq_default _ _ (Nat.le_of_not_lt hidx)] at h3
          simp at h3
      · subst h3
        exact hv

theorem getCellValue_setCellValue_self {b : GameBoard} (hd : GoodDims b) {r c : Int} (v : Nat)
    (hr0 : 0 ≤ r) (hr1 : r < (b.height : Int)) (hc0 : 0 ≤ c) (hc1 : c < (b.width : Int)) :
    (b.setCellValue r c v).getCellValue r c = some v := by
  obtain ⟨hlen, hrows⟩ := hd
  have hguard : (decide (r < 0) || decide (r ≥ (b.height : Int)) || decide (c < 0) ||
      decide (c ≥ (b.width : Int))) = false := by
    simp only [Bool.or_eq_false_iff, decide_eq_false_iff_not, not_lt, not_le]
    omega
  unfold GameBoard.setCellValue
  rw [if_neg (by simp [hguard])]
  unfold GameBoard.getCellValue
  rw [if_neg (by simp only [setCellValue_height, setCellValue_width] at *; simp [hguard])]
  simp only []
  have hidx : r.toNat < b.board.length := by omega
  have hrowlen : c.toNat < (b.board.getD r.toNat []).length := by
    rw [hrows _ (getD_mem_of_lt _ _ _ hidx)]
    omega
  rw [cellSet_getD, if_pos ⟨rfl, hidx, rfl, hrowlen⟩]

theorem getCellValue_setCellValue_ne (b : GameBoard) {r c r2 c2 : Int} (v : Nat)
    (h : r ≠ r2 ∨ c ≠ c2) :
    (b.setCellValue r c v).getCellValue r2 c2 = b.getCellValue r2 c2 := by
  unfold GameBoard.setCellValue
  split
  · rfl
  · next hguard =>
    simp only [Bool.or_eq_true, decide_eq_true_eq, not_or, not_lt, not_le] at hguard
    unfold GameBoard.getCellValue
    by_cases hread : (r2 < 0 || r2 ≥ (b.height : Int) || c2 < 0 || c2 ≥ (b.width : Int)) = true
    · rw [if_pos (by simpa using hread), if_pos (by simpa using hread)]
    · rw [if_neg (by simpa using hread), if_neg (by simpa using hread)]
      simp only [Bool.or_eq_true, decide_eq_true_eq, not_or, not_lt, not_le] at hread
      rw [cellSet_getD, if_neg]
      rintro ⟨h1, _, h3, _⟩
      rcases h with hne | hne
      · exact hne (by omega)
      · exact hne (by omega)

theorem getCellValue_setCellValue_or (b : GameBoard) (r c r2 c2 : Int) (v : Nat) :
    (b.setCellValue r c v).getCellValue r2 c2 = some v ∨
      (b.setCellValue r c v).getCellValue r2 c2 = b.getCellValue r2 c2 := by
  unfold GameBoard.setCellValue
  split
  · right; rfl
  · unfold GameBoard.getCellValue
    by_cases hread : (r2 < 0 || r2 ≥ (b.height : Int) || c2 < 0 || c2 ≥ (b.width : Int)) = true
    · right
      rw [if_pos (by simpa using hread), if_pos (by simpa using hread)]
    · rw [if_neg (by simpa using hread), if_neg (by simpa using hread)]
      rw [cellSet_getD]
      split
      · left; rfl
      · right; rfl

end MyWork

namespace MyWork

theorem writeFold_width (shape : List (List Nat)) (x y : Int) (cid : Nat)
    (L : List (Nat × Nat)) (b : GameBoard) :
    (writeFold shape x y cid L b).width = b.width := by
  induction L generalizing b with
  | nil => rfl
  | cons q L ih =>
    unfold writeFold at ih ⊢
    rw [List.foldl_cons]
    rw [ih]
    split
    · exact setCellValue_width b _ _ _
    · rfl

theorem writeFold_height (shape : List (List Nat)) (x y : Int) (cid : Nat)
    (L : List (Nat × Nat)) (b : GameBoard) :
    (writeFold shape x y cid L b).height = b.height := by
  induction L generalizing b with
  | nil => rfl
  | cons q L ih =>
    unfold writeFold at ih ⊢
    rw [List.foldl_cons]
    rw [ih]
    split
    · exact setCellValue_height b _ _ _
    · rfl

theorem writeFold_GoodDims {shape : List (List Nat)} {x y : Int} {cid : Nat}
    {L : List (Nat × Nat)} {b : GameBoard} (h : GoodDims b) :
    GoodDims (writeFold shape x y cid L b) := by
  unfold writeFold
  refine foldl_preserves L (fun b2 q _ h2 => ?_) h
  split
  · exact GoodDims_setCellValue h2 _ _ _
  · exact h2

theorem writeFold_GoodBoard {shape : List (List Nat)} {x y : Int} {cid : Nat}
    (hcid : cid ≤ 7) {L : List (Nat × Nat)} {b : GameBoard} (h : GoodBoard b) :
    GoodBoard (writeFold shape x y cid L b) := by
  unfold writeFold
  refine foldl_preserves L (fun b2 q _ h2 => ?_) h
  split
  · exact GoodBoard_setCellValue h2 _ _ hcid
  · exact h2

theorem writeFold_getCellValue_const {shape : List (List Nat)} {x y : Int} {cid : Nat}
    {L : List (Nat × Nat)} {b : GameBoard} {r c : Int}
    (h : b.getCellValue r c = some cid) :
    (writeFold shape x y cid L b).getCellValue r c = some cid := by
  induction L generalizing b with
  | nil => exact h
  | cons q L ih =>
    unfold writeFold at ih ⊢
    rw [List.foldl_cons]
    apply ih
    split
    · rcases getCellValue_setCellValue_or b (y + q.1) (x + q.2) r c cid with h2 | h2
      · exact h2
      · rw [h2]; exact h
    · exact h

theorem writeFold_getCellValue_untouched {shape : List (List Nat)} {x y : Int} {cid : Nat}
    {L : List (Nat × Nat)} {b : GameBoard} {r c : Int}
    (h : ∀ q ∈ L, (shape.getD q.1 []).getD q.2 0 = 1 → ¬(y + q.1 = r ∧ x + q.2 = c)) :
    (writeFold shape x y cid L b).getCellValue r c = b.getCellValue r c := by
  induction L generalizing b with
  | nil => rfl
  | cons q L ih =>
    unfold writeFold at ih ⊢
    rw [List.foldl_cons]
    have hrest : ∀ q2 ∈ L, (shape.getD q2.1 []).getD q2.2 0 = 1 →
        ¬(y + q2.1 = r ∧ x + q2.2 = c) :=
      fun q2 hq2 => h q2 (List.mem_cons_of_mem q hq2)
    split
    · next hcell =>
      rw [ih hrest]
      apply getCellValue_setCellValue_ne
      have := h q (List.mem_cons_self q L) hcell
      by_cases h1 : y + q.1 = r
      · right; intro h2; exact this ⟨h1, h2⟩
      · left; exact h1
    · exact ih hrest

theorem writeFold_getCellValue_touched {shape : List (List Nat)} {x y : Int} {cid : Nat}
    {L : List (Nat × Nat)} {b : GameBoard} {r c : Int} (hd : GoodDims b)
    (hr0 : 0 ≤ r) (hr1 : r < (b.height : Int)) (hc0 : 0 ≤ c) (hc1 : c < (b.width : Int))
    (hcov : ∃ q ∈ L, (shape.getD q.1 []).getD q.2 0 = 1 ∧ y + q.1 = r ∧ x + q.2 = c) :
    (writeFold shape x y cid L b).getCellValue r c = some cid := by
  induction L generalizing b with
  | nil => simp at hcov
  | cons q L ih =>
    unfold writeFold at ih ⊢
    rw [List.foldl_cons]
    by_cases hq : (shape.getD q.1 []).getD q.2 0 = 1 ∧ y + q.1 = r ∧ x + q.2 = c
    · rw [if_pos hq.1, hq.2.1, hq.2.2]
      apply writeFold_getCellValue_const
      exact getCellValue_setCellValue_self hd cid hr0 hr1 hc0 hc1
    · have hcov2 : ∃ q2 ∈ L, (shape.getD q2.1 []).getD q2.2 0 = 1 ∧
          y + q2.1 = r ∧ x + q2.2 = c := by
        rcases hcov with ⟨q0, hq0mem, hq0⟩
        rcases List.mem_cons.mp hq0mem with h2 | h2
        · exact absurd (h2 ▸ hq0) hq
        · exact ⟨q0, h2, hq0⟩
      split
      · exact ih (GoodDims_setCellValue hd _ _ _) (by rw [setCellValue_height]; exact hr1)
          (by rw [setCellValue_width]; exact hc1) hcov2
      · exact ih hd hr1 hc1 hcov2

end MyWork

namespace MyWork

theorem placePiece_eq_writeFold (b : GameBoard) (t : Tetromino) (x y : Int)
    (hval : b.isValidPosition t x y = true) :
    b.placePiece t x y =
      (true, writeFold t.getShape x y (GameBoard.getColorId t.getColor)
        (cellPairs t.getShape) b) := by
  unfold GameBoard.placePiece
  rw [if_neg (by simp [hval])]
  unfold writeFold cellPairs
  rw [foldl_flatMap]
  simp only [List.foldl_map]

theorem getColorId_le_7 (color : String) : 1 ≤ GameBoard.getColorId color ∧
    GameBoard.getColorId color ≤ 7 := by
  unfold GameBoard.getColorId
  split_ifs <;> omega

theorem getShape_length_ne_zero (ty : TType) (r : Nat) (hr : r < 4) :
    (Tetromino.getShape ⟨ty, r⟩).length ≠ 0 := by
  interval_cases r <;> cases ty <;> decide

theorem isValidPosition_iff (b : GameBoard) (t : Tetromino) (x y : Int) :
    b.isValidPosition t x y = true ↔
      (t.getShape.length ≠ 0 ∧ ∀ i j : Nat, i < t.getShape.length →
        j < (t.getShape.getD i []).length → (t.getShape.getD i []).getD j 0 ≠ 0 →
        (0 ≤ y + i ∧ y + i < (b.height : Int) ∧ 0 ≤ x + j ∧ x + j < (b.width : Int) ∧
          b.getCellValue (y + i) (x + j) = some 0)) := by
  unfold GameBoard.isValidPosition
  by_cases h0 : t.getShape.length = 0
  · simp [h0]
  · rw [if_neg h0]
    simp only [List.all_eq_true, List.mem_range]
    constructor
    · intro h
      refine ⟨h0, fun i j hi hj hcell => ?_⟩
      have h2 := h i hi j hj
      rw [if_neg hcell] at h2
      simp only [Bool.and_eq_true, Bool.not_eq_true'] at h2
      obtain ⟨hib, hnf⟩ := h2
      unfold GameBoard.isInBounds at hib
      simp only [Bool.and_eq_true, decide_eq_true_eq] at hib
      obtain ⟨⟨⟨hb1, hb2⟩, hb3⟩, hb4⟩ := hib
      have hg : b.getCellValue (y + i) (x + j)
          = some ((b.board.getD (y + i).toNat []).getD (x + j).toNat 0) := by
        unfold GameBoard.getCellValue
        rw [if_neg (by simp only [Bool.or_eq_true, decide_eq_true_eq]; omega)]
      unfold GameBoard.isFilled at hnf
      rw [hg] at hnf
      simp only [decide_eq_false_iff_not, not_lt, Nat.le_zero] at hnf
      exact ⟨hb1, hb2, hb3, hb4, by rw [hg, hnf]⟩
    · rintro ⟨_, h⟩ i hi j hj
      by_cases hcell : (t.getShape.getD i []).getD j 0 = 0
      · rw [if_pos hcell]
      · rw [if_neg hcell]
        obtain ⟨h1, h2, h3, h4, h5⟩ := h i j hi hj hcell
        unfold GameBoard.isInBounds GameBoard.isFilled
        rw [h5]
        simp only [Bool.and_eq_true, decide_eq_true_eq]
        exact ⟨⟨⟨⟨h1, h2⟩, h3⟩, h4⟩, by simp⟩

end MyWork

namespace Examples

theorem mem_pairs44 (q : Nat × Nat) : q ∈ pairs44 ↔ q.1 < 4 ∧ q.2 < 4 := by
  obtain ⟨i, j⟩ := q
  simp [pairs44, List.mem_flatMap, List.mem_map, List.mem_range]

theorem checkCollision_eq_false_iff (board : Board) (p : Piece) (dx dy : Int) :
    checkCollision board p dx dy = false ↔
      ∀ i j : Nat, i < 4 → j < 4 → (p.shape.getD i []).getD j 0 ≠ 0 →
        (0 ≤ p.x + dx + (j : Int) ∧ p.x + dx + (j : Int) < 10 ∧ p.y + dy + (i : Int) < 20 ∧
          (0 ≤ p.y + dy + (i : Int) →
            (cellAt board (p.y + dy + (i : Int)).toNat (p.x + dx + (j : Int)).toNat).truthy
              = false)) := by
  unfold checkCollision
  rw [← Bool.not_eq_true]
  simp only [List.any_eq_true, List.mem_range, Bool.and_eq_true, Bool.or_eq_true,
    decide_eq_true_eq, not_exists, not_and, not_or, cellAt, BOARD_WIDTH, BOARD_HEIGHT]
  constructor
  · intro h i j hi hj hcell
    obtain ⟨⟨⟨hx0, hx1⟩, hy1⟩, h4⟩ := h i hi j hj hcell
    refine ⟨by omega, by omega, by omega, fun hy0 => ?_⟩
    have h5 := h4 (by omega)
    simpa using h5
  · intro h i hi j hj hcell
    obtain ⟨hx0, hx1, hy1, hemp⟩ := h i j hi hj hcell
    refine ⟨⟨⟨by omega, by omega⟩, by omega⟩, fun hy0 => ?_⟩
    have h5 := hemp (by omega)
    simpa [List.getD] using h5

theorem placePieceWrites_eq_exWriteFold (board : Board) (p : Piece) :
    placePieceWrites board p = exWriteFold p pairs44 board := by
  unfold placePieceWrites exWriteFold pairs44
  rw [foldl_flatMap]
  simp only [List.foldl_map]

theorem ExDims_exSet {b2 : Board} (h : ExDims b2) (R C : Nat) (v : JsVal) :
    ExDims (b2.set R ((b2.getD R []).set C v)) := by
  by_cases hR : R < b2.length
  · refine ⟨by simpa using h.1, ?_⟩
    intro row hrow
    rcases List.mem_or_eq_of_mem_set hrow with h2 | h2
    · exact h.2 row h2
    · subst h2
      rw [List.length_set]
      exact h.2 _ (getD_mem_of_lt _ _ _ hR)
  · rw [List.set_eq_of_length_le (Nat.le_of_not_lt hR)]
    exact h

theorem exSet_cells {P : JsVal → Prop} {b2 : Board} (h : ∀ row ∈ b2, ∀ w ∈ row, P w)
    (R C : Nat) {v : JsVal} (hv : P v) :
    ∀ row ∈ b2.set R ((b2.getD R []).set C v), ∀ w ∈ row, P w := by
  intro row hrow w hw
  rcases List.mem_or_eq_of_mem_set hrow with h2 | h2
  · exact h row h2 w hw
  · subst h2
    rcases List.mem_or_eq_of_mem_set hw with h3 | h3
    · by_cases hR : R < b2.length
      · exact h _ (getD_mem_of_lt _ _ _ hR) w h3
      · rw [List.getD_eq_default _ _ (Nat.le_of_not_lt hR)] at h3
        simp at h3
    · subst h3
      exact hv

theorem cellAt_exSet_or (b2 : Board) (R C r c : Nat) (v : JsVal) :
    cellAt (b2.set R ((b2.getD R []).set C v)) r c = v ∨
      cellAt (b2.set R ((b2.getD R []).set C v)) r c = cellAt b2 r c := by
  unfold cellAt
  rw [cellSet_getD]
  split
  · left; rfl
  · right; rfl

theorem cellAt_exSet_self (b2 : Board) {R C : Nat} (hR : R < b2.length)
    (hC : C < (b2.getD R []).length) (v : JsVal) :
    cellAt (b2.set R ((b2.getD R []).set C v)) R C = v := by
  unfold cellAt
  rw [cellSet_getD, if_pos ⟨rfl, hR, rfl, hC⟩]

theorem cellAt_exSet_ne (b2 : Board) {R C r c : Nat} (hne : R ≠ r ∨ C ≠ c) (v : JsVal) :
    cellAt (b2.set R ((b2.getD R []).set C v)) r c = cellAt b2 r c := by
  unfold cellAt
  rw [cellSet_getD, if_neg (by tauto)]

end Examples

namespace Examples

theorem exWriteFold_ExDims {p : Piece} {L : List (Nat × Nat)} {board : Board}
    (h : ExDims board) : ExDims (exWriteFold p L board) := by
  unfold exWriteFold
  refine foldl_preserves L (fun b2 q _ h2 => ?_) h
  split
  · split
    · exact ExDims_exSet h2 _ _ _
    · exact h2
  · exact h2

theorem exWriteFold_cells {P : JsVal → Prop} {p : Piece} {L : List (Nat × Nat)} {board : Board}
    (h : ∀ row ∈ board, ∀ w ∈ row, P w) (hcolor : P (JsVal.str p.color)) :
    ∀ row ∈ exWriteFold p L board, ∀ w ∈ row, P w := by
  induction L generalizing board with
  | nil => exact h
  | cons q L ih =>
    unfold exWriteFold at ih ⊢
    rw [List.foldl_cons]
    apply ih
    split
    · split
      · exact exSet_cells h _ _ hcolor
      · exact h
    · exact h

theorem exWriteFold_cellAt_const {p : Piece} {L : List (Nat × Nat)} {board : Board}
    {r c : Nat} (h : cellAt board r c = JsVal.str p.color) :
    cellAt (exWriteFold p L board) r c = JsVal.str p.color := by
  induction L generalizing board with
  | nil => exact h
  | cons q L ih =>
    unfold exWriteFold at ih ⊢
    rw [List.foldl_cons]
    apply ih
    split
    · split
      · rcases cellAt_exSet_or board (p.y + q.1).toNat (p.x + q.2).toNat r c
            (JsVal.str p.color) with h2 | h2
        · exact h2
        · rw [h2]; exact h
      · exact h
    · exact h

theorem exWriteFold_cellAt_untouched {p : Piece} {L : List (Nat × Nat)} {board : Board}
    {r c : Nat}
    (hX : ∀ q ∈ L, (p.shape.getD q.1 []).getD q.2 0 ≠ 0 → 0 ≤ p.x + (q.2 : Int))
    (hnc : ∀ q ∈ L, ¬((p.shape.getD q.1 []).getD q.2 0 ≠ 0 ∧
      p.y + (q.1 : Int) = (r : Int) ∧ p.x + (q.2 : Int) = (c : Int))) :
    cellAt (exWriteFold p L board) r c = cellAt board r c := by
  induction L generalizing board with
  | nil => rfl
  | cons q L ih =>
    unfold exWriteFold at ih ⊢
    rw [List.foldl_cons]
    have hXr : ∀ q2 ∈ L, (p.shape.getD q2.1 []).getD q2.2 0 ≠ 0 → 0 ≤ p.x + (q2.2 : Int) :=
      fun q2 hq2 => hX q2 (List.mem_cons_of_mem q hq2)
    have hncr : ∀ q2 ∈ L, ¬((p.shape.getD q2.1 []).getD q2.2 0 ≠ 0 ∧
        p.y + (q2.1 : Int) = (r : Int) ∧ p.x + (q2.2 : Int) = (c : Int)) :=
      fun q2 hq2 => hnc q2 (List.mem_cons_of_mem q hq2)
    split
    · next hcell =>
      split
      · next hy =>
        rw [ih hXr hncr]
        apply cellAt_exSet_ne
        have hq := hnc q (List.mem_cons_self q L)
        have hx0 := hX q (List.mem_cons_self q L) hcell
        by_cases h1 : p.y + (q.1 : Int) = (r : Int)
        · right
          intro h2
          exact hq ⟨hcell, h1, by omega⟩
        · left
          omega
      · exact ih hXr hncr
    · exact ih hXr hncr

theorem exWriteFold_cellAt_touched {p : Piece} {L : List (Nat × Nat)} {board : Board}
    {r c : Nat} (hd : ExDims board) (hr : r < 20) (hc : c < 10)
    (hcov : ∃ q ∈ L, (p.shape.getD q.1 []).getD q.2 0 ≠ 0 ∧
      p.y + (q.1 : Int) = (r : Int) ∧ p.x + (q.2 : Int) = (c : Int)) :
    cellAt (exWriteFold p L board) r c = JsVal.str p.color := by
  induction L generalizing board with
  | nil => simp at hcov
  | cons q L ih =>
    unfold exWriteFold at ih ⊢
    rw [List.foldl_cons]
    by_cases hq : (p.shape.getD q.1 []).getD q.2 0 ≠ 0 ∧
        p.y + (q.1 : Int) = (r : Int) ∧ p.x + (q.2 : Int) = (c : Int)
    · have hy0 : p.y + (q.1 : Int) ≥ 0 := by omega
      rw [if_pos hq.1, if_pos hy0]
      apply exWriteFold_cellAt_const
      have hR : (p.y + (q.1 : Int)).toNat = r := by omega
      have hC : (p.x + (q.2 : Int)).toNat = c := by omega
      rw [hR, hC]
      apply cellAt_exSet_self
      · rw [hd.1]
        omega
      · rw [hd.2 _ (getD_mem_of_lt _ _ _ (by rw [hd.1]; omega))]
        omega
    · have hcov2 : ∃ q2 ∈ L, (p.shape.getD q2.1 []).getD q2.2 0 ≠ 0 ∧
          p.y + (q2.1 : Int) = (r : Int) ∧ p.x + (q2.2 : Int) = (c : Int) := by
        rcases hcov with ⟨q0, hq0mem, hq0⟩
        rcases List.mem_cons.mp hq0mem with h2 | h2
        · exact absurd (h2 ▸ hq0) hq
        · exact ⟨q0, h2, hq0⟩
      split
      · split
        · exact ih (ExDims_exSet hd _ _ _) hcov2
        · exact ih hd hcov2
      · exact ih hd hcov2

end Examples

namespace MyWork

theorem GoodBoard_mkBoard (w h : Nat) : GoodBoard (GameBoard.mkBoard w h) := by
  refine ⟨⟨by simp [GameBoard.mkBoard, initializeBoard], ?_⟩, ?_⟩
  · intro row hrow
    rw [List.eq_of_mem_replicate hrow]
    simp [GameBoard.mkBoard]
  · intro row hrow w2 hw
    rw [List.eq_of_mem_replicate hrow] at hw
    rw [List.eq_of_mem_replicate hw]
    exact Nat.zero_le 7

theorem GoodBoard_clear {b : GameBoard} : GoodBoard b.clear := by
  refine ⟨⟨by simp [GameBoard.clear, initializeBoard], ?_⟩, ?_⟩
  · intro row hrow
    rw [List.eq_of_mem_replicate hrow]
    simp [GameBoard.clear]
  · intro row hrow w2 hw
    rw [List.eq_of_mem_replicate hrow] at hw
    rw [List.eq_of_mem_replicate hw]
    exact Nat.zero_le 7

theorem GoodBoard_removeLine {b : GameBoard} (h : GoodBoard b) (idx : Nat) :
    GoodBoard (b.removeLine idx) := by
  obtain ⟨⟨hlen, hrows⟩, hvals⟩ := h
  unfold GameBoard.removeLine
  split
  · exact ⟨⟨hlen, hrows⟩, hvals⟩
  · next hidx =>
    rw [not_le] at hidx
    refine ⟨⟨?_, ?_⟩, ?_⟩
    · simp only [List.length_cons, List.length_append, List.length_take, List.length_drop]
      omega
    · intro row hrow
      rcases List.mem_cons.mp hrow with h2 | h2
      · subst h2; simp
      · rcases List.mem_append.mp h2 with h3 | h3
        · exact hrows row (List.take_subset _ _ h3)
        · exact hrows row (List.drop_subset _ _ h3)
    · intro row hrow w hw
      rcases List.mem_cons.mp hrow with h2 | h2
      · subst h2
        rw [List.eq_of_mem_replicate hw]
        exact Nat.zero_le 7
      · rcases List.mem_append.mp h2 with h3 | h3
        · exact hvals row (List.take_subset _ _ h3) w hw
        · exact hvals row (List.drop_subset _ _ h3) w hw

theorem GoodBoard_clearLines {b : GameBoard} (h : GoodBoard b) :
    GoodBoard (b.clearLines).1 := by
  have hrw : b.clearLines =
      if b.findCompletedLines.length = 0 then (b, 0)
      else (b.removeCompletedLines b.findCompletedLines, b.findCompletedLines.length) := rfl
  rw [hrw]
  split
  · exact h
  · unfold GameBoard.removeCompletedLines
    exact foldl_preserves _ (fun b2 i _ h2 => GoodBoard_removeLine h2 i) h

theorem GoodBoard_placePiece {b : GameBoard} (h : GoodBoard b) (t : Tetromino) (x y : Int) :
    GoodBoard (b.placePiece t x y).2 := by
  by_cases hval : b.isValidPosition t x y = true
  · rw [placePiece_eq_writeFold b t x y hval]
    exact writeFold_GoodBoard (getColorId_le_7 t.getColor).2 h
  · unfold GameBoard.placePiece
    rw [if_pos (by simp [Bool.eq_false_iff.mpr hval])]
    exact h

end MyWork

namespace Examples

theorem ExGood_createEmptyBoard : ExGood createEmptyBoard := by
  refine ⟨by simp [createEmptyBoard, BOARD_HEIGHT], ?_, ?_⟩
  · intro row hrow
    rw [List.eq_of_mem_replicate hrow]
    simp [BOARD_WIDTH]
  · intro row hrow v2 hv
    rw [List.eq_of_mem_replicate hrow] at hv
    rw [List.eq_of_mem_replicate hv]
    exact Or.inl rfl

theorem ExGood_placePieceWrites {board : Board} {p : Piece} (h : ExGood board)
    (hc : ∃ ty : MyWork.TType, p.color = TETROMINOS_color ty) :
    ExGood (placePieceWrites board p) := by
  rw [placePieceWrites_eq_exWriteFold]
  obtain ⟨h1, h2, h3⟩ := h
  have hd := exWriteFold_ExDims (p := p) (L := pairs44) ⟨h1, h2⟩
  refine ⟨hd.1, hd.2, ?_⟩
  obtain ⟨ty, hty⟩ := hc
  exact exWriteFold_cells h3 (Or.inr ⟨ty, by rw [hty]⟩)

theorem ExGood_clearLinesLoop (fuel : Nat) :
    ∀ (board : Board) (y : Int) (lc : Nat), ExGood board → y < 20 →
      ExGood (clearLinesLoop fuel board y lc).1 := by
  induction fuel with
  | zero => exact fun board y lc h _ => h
  | succ fuel ih =>
    intro board y lc h hy
    unfold clearLinesLoop
    split
    · exact h
    · next hneg =>
      rw [not_lt] at hneg
      split
      · apply ih _ y _ ?_ hy
        obtain ⟨h1, h2, h3⟩ := h
        have hylen : y.toNat < board.length := by omega
        refine ⟨?_, ?_, ?_⟩
        · simp only [List.length_cons]
          rw [List.length_eraseIdx_of_lt hylen]
          omega
        · intro row hrow
          rcases List.mem_cons.mp hrow with hr2 | hr2
          · subst hr2; simp [BOARD_WIDTH]
          · exact h2 row (List.mem_of_mem_eraseIdx hr2)
        · intro row hrow v2 hv
          rcases List.mem_cons.mp hrow with hr2 | hr2
          · subst hr2
            rw [List.eq_of_mem_replicate hv]
            exact Or.inl rfl
          · exact h3 row (List.mem_of_mem_eraseIdx hr2) v2 hv
      · exact ih _ (y - 1) _ h (by omega)

theorem ExGood_clearLinesBoard {board : Board} (h : ExGood board) :
    ExGood (clearLinesBoard board).1 := by
  unfold clearLinesBoard
  exact ExGood_clearLinesLoop 64 board _ 0 h (by norm_num [BOARD_HEIGHT])

end Examples

namespace MyWork

theorem mem_cellPairs (shape : List (List Nat)) (q : Nat × Nat) :
    q ∈ cellPairs shape ↔ q.1 < shape.length ∧ q.2 < (shape.getD q.1 []).length := by
  obtain ⟨i, j⟩ := q
  simp [cellPairs, List.mem_flatMap, List.mem_map, List.mem_range]

end MyWork

/-- C2 counterexample: the claimed equivalence fails for the examples variant.
The I piece placed two rows above the board on an empty board passes the
validity check (`checkCollision = false`), yet its filled cell at shape row 1
maps to board row −1, which is not in-bounds on the vertical axis. -/
theorem validity_top_cexample :
    Examples.checkCollision Examples.createEmptyBoard Examples.iPieceAboveTop 0 0 = false ∧
    (Examples.iPieceAboveTop.shape.getD 1 []).getD 0 0 ≠ 0 ∧
    Examples.iPieceAboveTop.y + (1 : Int) < 0 := by decide

/-- C2 as amended: the my-work `isValidPosition` returns true exactly when
every filled cell of the current shape lands in bounds on both axes on an
empty cell (the claim as stated); the examples variant's
`¬checkCollision` instead checks only the left, right and bottom bounds, and
emptiness at non-negative rows — cells above the top of the board are
accepted. -/
theorem placement_validity (b : MyWork.GameBoard) (t : MyWork.Tetromino) (x y : Int)
    (board : Examples.Board) (p : Examples.Piece) (dx dy : Int) (hr : t.rotation < 4) :
    (b.isValidPosition t x y = true ↔
      ∀ i j : Nat, i < t.getShape.length → j < (t.getShape.getD i []).length →
        (t.getShape.getD i []).getD j 0 ≠ 0 →
        (0 ≤ y + (i : Int) ∧ y + (i : Int) < (b.height : Int) ∧ 0 ≤ x + (j : Int) ∧
          x + (j : Int) < (b.width : Int) ∧
          b.getCellValue (y + (i : Int)) (x + (j : Int)) = some 0)) ∧
    (Examples.checkCollision board p dx dy = false ↔
      ∀ i j : Nat, i < 4 → j < 4 → (p.shape.getD i []).getD j 0 ≠ 0 →
        (0 ≤ p.x + dx + (j : Int) ∧ p.x + dx + (j : Int) < 10 ∧
          p.y + dy + (i : Int) < 20 ∧
          (0 ≤ p.y + dy + (i : Int) →
            (Examples.cellAt board (p.y + dy + (i : Int)).toNat
              (p.x + dx + (j : Int)).toNat).truthy = false))) := by
  constructor
  · rw [MyWork.isValidPosition_iff]
    constructor
    · exact fun h2 => h2.2
    · intro h2
      exact ⟨MyWork.getShape_length_ne_zero t.type t.rotation hr, h2⟩
  · exact Examples.checkCollision_eq_false_iff board p dx dy

/-- Witness for `placement_validity`: an O piece at the bottom-right of an
empty my-work board, and the above-top I piece on an empty examples board. -/
theorem placement_validity_witness :
    ((MyWork.GameBoard.mkBoard 10 20).isValidPosition ⟨.O, 0⟩ 8 18 = true ↔
      ∀ i j : Nat, i < (MyWork.Tetromino.getShape ⟨.O, 0⟩).length →
        j < ((MyWork.Tetromino.getShape ⟨.O, 0⟩).getD i []).length →
        ((MyWork.Tetromino.getShape ⟨.O, 0⟩).getD i []).getD j 0 ≠ 0 →
        (0 ≤ 18 + (i : Int) ∧ 18 + (i : Int) < ((MyWork.GameBoard.mkBoard 10 20).height : Int) ∧
          0 ≤ 8 + (j : Int) ∧ 8 + (j : Int) < ((MyWork.GameBoard.mkBoard 10 20).width : Int) ∧
          (MyWork.GameBoard.mkBoard 10 20).getCellValue (18 + (i : Int)) (8 + (j : Int))
            = some 0)) ∧
      (Examples.checkCollision Examples.createEmptyBoard Examples.iPieceAboveTop 0 0 = false ↔
        ∀ i j : Nat, i < 4 → j < 4 →
          (Examples.iPieceAboveTop.shape.getD i []).getD j 0 ≠ 0 →
          (0 ≤ Examples.iPieceAboveTop.x + 0 + (j : Int) ∧
            Examples.iPieceAboveTop.x + 0 + (j : Int) < 10 ∧
            Examples.iPieceAboveTop.y + 0 + (i : Int) < 20 ∧
            (0 ≤ Examples.iPieceAboveTop.y + 0 + (i : Int) →
              (Examples.cellAt Examples.createEmptyBoard
                (Examples.iPieceAboveTop.y + 0 + (i : Int)).toNat
                (Examples.iPieceAboveTop.x + 0 + (j : Int)).toNat).truthy = false))) :=
  placement_validity (MyWork.GameBoard.mkBoard 10 20) ⟨.O, 0⟩ 8 18
    Examples.createEmptyBoard Examples.iPieceAboveTop 0 0 (by decide)

/-- C7: confirmed. On a well-dimensioned board, `placePiece` returns false and
leaves the board untouched whenever `isValidPosition` is false at call time;
when it is true, it returns true and the resulting grid holds the color id
derived from the piece's type (`getColorId(piece.getColor())`) exactly at the
cells covered by the shape's filled entries, every other cell reading
unchanged. -/
theorem placePiece_contract (b : MyWork.GameBoard) (t : MyWork.Tetromino) (x y : Int)
    (hd : MyWork.GoodDims b) :
    (b.isValidPosition t x y = false → b.placePiece t x y = (false, b)) ∧
    (b.isValidPosition t x y = true →
      (b.placePiece t x y).1 = true ∧
      ∀ r c : Int,
        ((∃ i j : Nat, i < t.getShape.length ∧ j < (t.getShape.getD i []).length ∧
            (t.getShape.getD i []).getD j 0 = 1 ∧ y + (i : Int) = r ∧ x + (j : Int) = c) →
          (b.placePiece t x y).2.getCellValue r c
            = some (MyWork.GameBoard.getColorId t.getColor)) ∧
        ((¬∃ i j : Nat, i < t.getShape.length ∧ j < (t.getShape.getD i []).length ∧
            (t.getShape.getD i []).getD j 0 = 1 ∧ y + (i : Int) = r ∧ x + (j : Int) = c) →
          (b.placePiece t x y).2.getCellValue r c = b.getCellValue r c)) := by
  constructor
  · intro hval
    unfold MyWork.GameBoard.placePiece
    rw [if_pos (by simp [hval])]
  · intro hval
    rw [MyWork.placePiece_eq_writeFold b t x y hval]
    refine ⟨rfl, fun r c => ⟨?_, ?_⟩⟩
    · rintro ⟨i, j, hi, hj, hcell, hyc, hxc⟩
      have hfacts := (MyWork.isValidPosition_iff b t x y).mp hval
      obtain ⟨h1, h2, h3, h4, h5⟩ :=
        hfacts.2 i j hi hj (by rw [hcell]; exact one_ne_zero)
      apply MyWork.writeFold_getCellValue_touched hd (by omega) (by omega) (by omega) (by omega)
      exact ⟨(i, j), (MyWork.mem_cellPairs _ _).mpr ⟨hi, hj⟩, hcell, hyc, hxc⟩
    · intro hnc
      apply MyWork.writeFold_getCellValue_untouched
      intro q hq hcell
      rintro ⟨hyc, hxc⟩
      rcases (MyWork.mem_cellPairs _ q).mp hq with ⟨hq1, hq2⟩
      exact hnc ⟨q.1, q.2, hq1, hq2, hcell, hyc, hxc⟩

/-- Witness for `placePiece_contract`: placing the O piece at (8, 18) on an
empty board succeeds. -/
theorem placePiece_contract_witness :
    ((MyWork.GameBoard.mkBoard 10 20).placePiece ⟨.O, 0⟩ 8 18).1 = true :=
  ((placePiece_contract (MyWork.GameBoard.mkBoard 10 20) ⟨.O, 0⟩ 8 18
      ⟨by decide, by decide⟩).2 (by decide)).1

/-- C9 counterexample: the examples variant does not store integer color-ids.
Locking an O piece at a legal bottom position writes the color *string*
`"#ffff00"` into the grid — the cell is not a number at all, let alone one in
[0, 7]. -/
theorem board_cell_string_cexample :
    Examples.checkCollision Examples.createEmptyBoard Examples.oPieceBottom 0 0 = false ∧
    Examples.cellAt (Examples.placePieceWrites Examples.createEmptyBoard Examples.oPieceBottom)
        18 4 = Examples.JsVal.str "#ffff00" ∧
    (Examples.cellAt (Examples.placePieceWrites Examples.createEmptyBoard Examples.oPieceBottom)
        18 4).isNum = false := by decide

/-- C9 as amended: the my-work variant does keep the claimed invariant — board
creation, piece placement, line clearing and reset all preserve a W×H grid
whose rows have exactly W cells and whose cells lie in [0, 7] (placement
writes `getColorId` values, which are 1..7). The examples variant preserves
the 20×10 dimensions, but its filled cells hold the pieces' color strings
(one of the 7 `TETROMINOS` colors for standard pieces), not integer ids. -/
theorem board_invariants :
    (∀ w h : Nat, MyWork.GoodBoard (MyWork.GameBoard.mkBoard w h)) ∧
    (∀ (b : MyWork.GameBoard) (t : MyWork.Tetromino) (x y : Int),
      MyWork.GoodBoard b → MyWork.GoodBoard (b.placePiece t x y).2) ∧
    (∀ b : MyWork.GameBoard, MyWork.GoodBoard b → MyWork.GoodBoard (b.clearLines).1) ∧
    (∀ b : MyWork.GameBoard, MyWork.GoodBoard b.clear) ∧
    Examples.ExGood Examples.createEmptyBoard ∧
    (∀ (board : Examples.Board) (p : Examples.Piece), Examples.ExGood board →
      (∃ ty : MyWork.TType, p.color = Examples.TETROMINOS_color ty) →
      Examples.ExGood (Examples.placePieceWrites board p)) ∧
    (∀ board : Examples.Board, Examples.ExGood board →
      Examples.ExGood (Examples.clearLinesBoard board).1) :=
  ⟨fun w h => MyWork.GoodBoard_mkBoard w h,
   fun _ t x y hb => MyWork.GoodBoard_placePiece hb t x y,
   fun _ hb => MyWork.GoodBoard_clearLines hb,
   fun _ => MyWork.GoodBoard_clear,
   Examples.ExGood_createEmptyBoard,
   fun _ _ hb hc => Examples.ExGood_placePieceWrites hb hc,
   fun _ hb => Examples.ExGood_clearLinesBoard hb⟩

/-- Witness for `board_invariants`: placing an O piece on the fresh my-work
board and locking the bottom O piece on the fresh examples board both keep
the respective invariants. -/
theorem board_invariants_witness :
    MyWork.GoodBoard ((MyWork.GameBoard.mkBoard 10 20).placePiece ⟨.O, 0⟩ 8 18).2 ∧
      Examples.ExGood (Examples.placePieceWrites Examples.createEmptyBoard
        Examples.oPieceBottom) :=
  ⟨board_invariants.2.1 (MyWork.GameBoard.mkBoard 10 20) ⟨.O, 0⟩ 8 18
      ⟨⟨by decide, by decide⟩, by decide⟩,
   board_invariants.2.2.2.2.2.1 Examples.createEmptyBoard Examples.oPieceBottom
      Examples.ExGood_createEmptyBoard ⟨.O, rfl⟩⟩

/-- C10: confirmed. In the examples variant, `checkCollision` enforces only
the left, right and bottom bounds (a placement whose cells satisfy those and
hit no filled cell at non-negative rows is collision-free, whatever its
negative rows do), and the locking writes of `placePiece` put the piece color
exactly on the covered cells with non-negative board row, leaving every other
board cell unchanged — cells above the top are silently dropped. Concretely,
the O piece two rows above the top of an empty board is collision-free, and
locking it fills only 2 board cells although the piece has 4 filled cells. -/
theorem top_overflow_behavior :
    (∀ (board : Examples.Board) (p : Examples.Piece) (dx dy : Int),
      (∀ i j : Nat, i < 4 → j < 4 → (p.shape.getD i []).getD j 0 ≠ 0 →
        (0 ≤ p.x + dx + (j : Int) ∧ p.x + dx + (j : Int) < 10 ∧
          p.y + dy + (i : Int) < 20 ∧
          (0 ≤ p.y + dy + (i : Int) →
            (Examples.cellAt board (p.y + dy + (i : Int)).toNat
              (p.x + dx + (j : Int)).toNat).truthy = false))) →
      Examples.checkCollision board p dx dy = false) ∧
    (∀ (board : Examples.Board) (p : Examples.Piece),
      Examples.checkCollision board p 0 0 = false → Examples.ExDims board →
      ∀ r c : Nat, r < 20 → c < 10 →
        ((∃ i j : Nat, i < 4 ∧ j < 4 ∧ (p.shape.getD i []).getD j 0 ≠ 0 ∧
            p.y + (i : Int) = (r : Int) ∧ p.x + (j : Int) = (c : Int)) →
          Examples.cellAt (Examples.placePieceWrites board p) r c
            = Examples.JsVal.str p.color) ∧
        ((¬∃ i j : Nat, i < 4 ∧ j < 4 ∧ (p.shape.getD i []).getD j 0 ≠ 0 ∧
            p.y + (i : Int) = (r : Int) ∧ p.x + (j : Int) = (c : Int)) →
          Examples.cellAt (Examples.placePieceWrites board p) r c
            = Examples.cellAt board r c)) ∧
    Examples.checkCollision Examples.createEmptyBoard Examples.oPieceAboveTop 0 0 = false ∧
    Examples.countFilled
      (Examples.placePieceWrites Examples.createEmptyBoard Examples.oPieceAboveTop) = 2 ∧
    ((Examples.oPieceAboveTop.shape.map fun row => (row.filter fun v => v ≠ 0).length).sum
      = 4) := by
  refine ⟨?_, ?_, by decide, by decide, by decide⟩
  · intro board p dx dy h
    exact (Examples.checkCollision_eq_false_iff board p dx dy).mpr h
  · intro board p hcol hdims r c hr hc
    rw [Examples.placePieceWrites_eq_exWriteFold]
    constructor
    · rintro ⟨i, j, hi, hj, hcell, hyc, hxc⟩
      apply Examples.exWriteFold_cellAt_touched hdims hr hc
      exact ⟨(i, j), (Examples.mem_pairs44 _).mpr ⟨hi, hj⟩, hcell, hyc, hxc⟩
    · intro hnc
      apply Examples.exWriteFold_cellAt_untouched
      · intro q hq hcell
        rcases (Examples.mem_pairs44 q).mp hq with ⟨h1, h2⟩
        have hfacts := (Examples.checkCollision_eq_false_iff board p 0 0).mp hcol
          q.1 q.2 h1 h2 hcell
        omega
      · intro q hq
        rintro ⟨hcell, hyc, hxc⟩
        rcases (Examples.mem_pairs44 q).mp hq with ⟨h1, h2⟩
        exact hnc ⟨q.1, q.2, h1, h2, hcell, hyc, hxc⟩

/-- Witness for `top_overflow_behavior`: the bottom O piece on an empty board,
whose covered cell (18, 4) ends up holding its color. -/
theorem top_overflow_behavior_witness :
    Examples.cellAt (Examples.placePieceWrites Examples.createEmptyBoard
        Examples.oPieceBottom) 18 4 = Examples.JsVal.str Examples.oPieceBottom.color :=
  ((top_overflow_behavior.2.1 Examples.createEmptyBoard Examples.oPieceBottom
      (by decide) ⟨by decide, by decide⟩ 18 4 (by decide) (by decide)).1)
    ⟨1, 1, by decide, by decide, by decide, by decide, by decide⟩
